import Mathlib

/-
Verification of the geometry / collision-detection module `geom.py`
(repository W-19/Code-Samples).

Embedding conventions:
* Numbers are modelled as exact rationals (the source computes with Python
  floats; the algorithms are exact rational/real arithmetic plus `math.sqrt`,
  `math.atan` and `math.inf`).
* A point (Python 2-tuple) is `ℚ × ℚ`.
* The slope sentinel `math.inf` is modelled by `Option ℚ`: `none` is the
  infinite slope of a vertical line, `some m` a finite slope.  Python's
  `math.inf == math.inf` is `True`, which matches equality on `Option ℚ`.
* `point_of_intersection` returns `Option (ℚ × ℚ)`: `none` models the
  source's `return False` for parallel lines.
* The comparisons `math.sqrt d2 < r` of the source are embedded by the
  decidable `sqrtLtB d2 r`; the lemma `sqrtLtB_eq_true_iff` proves it equal
  to `Real.sqrt d2 < r`, so nothing is lost.  The real-valued `distance`
  itself is embedded over `ℝ` with `Real.sqrt`.
* `collision` returns `Option Bool`: `some b` models a boolean result,
  `none` models a non-boolean outcome (the `None` fall-through of the
  wall/wall case, or the `TypeError` the source raises when
  `point_of_intersection` hands `False` to `distance`).
* `Entity` and `Wall` are the external collaborator classes of the source
  (`import entity, wall`), not part of this repository.  Modelled from the
  spec: an entity exposes numeric `x`, `y`, a collision radius and a center
  point (which may differ from the raw position); a wall exposes an ordered
  vertex list and its count.
-/

namespace Geom

/-- A 2D point, the Python coordinate 2-tuple. -/
abbrev Point : Type := ℚ × ℚ

/-- Source `max(a, b)`: `a if a>b else b` (module-level shadow of the builtin). -/
def max' (a b : ℚ) : ℚ := if a > b then a else b

/-- Source `min(a, b)`: `a if a<b else b`. -/
def min' (a b : ℚ) : ℚ := if a < b then a else b

/-- Source `sign(n)`. -/
def sign (n : ℚ) : ℤ := if n = 0 then 0 else if n > 0 then 1 else -1

/-- Source `slope(p1, p2)`: `math.inf if p1[0] == p2[0] else (p2[1]-p1[1])/(p2[0]-p1[0])`.
`none` is the `math.inf` sentinel. -/
def slope (p1 p2 : Point) : Option ℚ :=
  if p1.1 = p2.1 then none else some ((p2.2 - p1.2) / (p2.1 - p1.1))

/-- Source `on_segment(point, line)`: the two point-to-endpoint slopes are equal
(collinearity, with `inf == inf` for the vertical case) and the point's x and y
lie in the endpoints' bounding box (inclusive). -/
def on_segment (point : Point) (line : Point × Point) : Bool :=
  decide (slope point line.1 = slope point line.2) &&
  decide (point.1 ≥ min' line.1.1 line.2.1) &&
  decide (point.1 ≤ max' line.1.1 line.2.1) &&
  decide (point.2 ≥ min' line.1.2 line.2.2) &&
  decide (point.2 ≤ max' line.1.2 line.2.2)

/-- The y-intercept the source computes for a line: `0 if (slope == math.inf)
else (line[0][1] - line[0][0]*slope)` (the `0` placeholder of a vertical line is
never read by `point_of_intersection`). -/
def lconst (line : Point × Point) : ℚ :=
  match slope line.1 line.2 with
  | none => 0
  | some m => line.1.2 - line.1.1 * m

/-- Source `point_of_intersection(line1, line2)`: `none` models `return False`
for parallel lines (`slope1 == slope2`, including both infinite); otherwise the
intersection of the two infinite lines, with the special cases for a vertical
`line1` or `line2`.  The final match arm is unreachable: two infinite slopes
were already caught by the parallel test. -/
def point_of_intersection (line1 line2 : Point × Point) : Option Point :=
  if slope line1.1 line1.2 = slope line2.1 line2.2 then none
  else
    match slope line1.1 line1.2, slope line2.1 line2.2 with
    | none, some m2 => some (line1.1.1, m2 * line1.1.1 + lconst line2)
    | some m1, none => some (line2.1.1, m1 * line2.1.1 + lconst line1)
    | some m1, some m2 =>
        some ((lconst line2 - lconst line1) / (m1 - m2),
              m1 * ((lconst line2 - lconst line1) / (m1 - m2)) + lconst line1)
    | none, none => none

/-- Modelled from the spec: the external `entity.Entity` collaborator exposes
numeric `x`, `y`, a collision radius, and a `center()` point that may differ
from the raw position `(x, y)`. -/
structure Entity where
  x : ℚ
  y : ℚ
  center : Point
  COLLISION_RADIUS : ℚ

/-- Modelled from the spec: the external `wall.Wall` collaborator exposes an
ordered sequence of vertices. -/
structure Wall where
  vertices : List Point

/-- Modelled from the spec: `wall.num_vertices()` is the vertex count. -/
def Wall.num_vertices (w : Wall) : ℕ := w.vertices.length

/-- Squared Euclidean distance: the summed-squares expression under every
`math.sqrt` of the source's `distance`. -/
def dist2 (a b : Point) : ℚ := (a.1 - b.1) ^ 2 + (a.2 - b.2) ^ 2

/-- Decidable embedding of the source's comparisons `math.sqrt d2 < r`
(`sqrtLtB_eq_true_iff` proves it equivalent to `Real.sqrt d2 < r`). -/
def sqrtLtB (d2 r : ℚ) : Bool := decide (0 < r) && decide (d2 < r * r)

/-- An argument of the source's `distance`: a raw tuple or an entity
(the `isinstance` dispatch). -/
inductive DistArg where
  | pt (p : Point)
  | ent (e : Entity)

/-- Source `distance(a, b)`: Euclidean distance, dispatching on tuple vs
entity.  The entity/tuple arm delegates to the tuple/entity arm with the
arguments swapped; here that delegation is inlined (`dist2 b (a.x, a.y)` is
literally the delegated value, so the swap identity holds by `rfl`). -/
noncomputable def distance : DistArg → DistArg → ℝ
  | .pt a, .pt b => Real.sqrt ((dist2 a b : ℚ) : ℝ)
  | .pt a, .ent b => Real.sqrt ((dist2 a (b.x, b.y) : ℚ) : ℝ)
  | .ent a, .pt b => Real.sqrt ((dist2 b (a.x, a.y) : ℚ) : ℝ)
  | .ent a, .ent b => Real.sqrt ((dist2 (a.x, a.y) (b.x, b.y) : ℚ) : ℝ)

/-- Python's `%` on rationals (sign follows the divisor): `a - b * ⌊a / b⌋`. -/
def pymod (a b : ℚ) : ℚ := a - b * ⌊a / b⌋

/-- Source `angle_to_point(entity_, point)`:
`-math.degrees(math.atan((point[1]-entity_.y)/(point[0]-entity_.x))) +
(180 if (point[0]-entity_.x) < 0 else 0) % 360`.
Python operator precedence binds the `% 360` to the conditional term only,
which is reproduced here by `pymod`. -/
noncomputable def angle_to_point (entity_ : Entity) (point : Point) : ℝ :=
  -(Real.arctan (((point.2 - entity_.y) / (point.1 - entity_.x) : ℚ) : ℝ) * 180 / Real.pi)
    + ((pymod (if point.1 - entity_.x < 0 then 180 else 0) 360 : ℚ) : ℝ)

/-- The `temp_point` of the entity/wall arm of `collision`: with the entity
center it defines the line intersected with a wall side.  Horizontal side
(`abs(slope) == 0`): `(x, y+1)`; vertical side (`math.isinf(slope)`):
`(x+1, y)`; otherwise `(x, y + -1/slope)`. -/
def temp_point (entity_ : Entity) (side : Point × Point) : Point :=
  match slope side.1 side.2 with
  | none => (entity_.x + 1, entity_.y)
  | some m => if |m| = 0 then (entity_.x, entity_.y + 1) else (entity_.x, entity_.y + -1 / m)

/-- Side `i` of a wall: `(vertices[i], vertices[(i+1) % num_vertices])`. -/
def wSide (w : Wall) (i : ℕ) : Point × Point :=
  (w.vertices.getD i (0, 0), w.vertices.getD ((i + 1) % w.num_vertices) (0, 0))

/-- One iteration of the entity/wall loop of `collision`: the source's
`(distance(center, intersection) < R and on_segment(intersection, side)) or
distance(center, vertices[i]) < R`.  `none` models the `TypeError` the source
raises when `point_of_intersection` returned `False` (then `distance` returns
`None` and `None < R` fails). -/
def sideCheck (entity_ : Entity) (w : Wall) (i : ℕ) : Option Bool :=
  match point_of_intersection (wSide w i) (entity_.center, temp_point entity_ (wSide w i)) with
  | none => none
  | some intersection =>
      some ((sqrtLtB (dist2 entity_.center intersection) entity_.COLLISION_RADIUS
               && on_segment intersection (wSide w i))
            || sqrtLtB (dist2 entity_.center (w.vertices.getD i (0, 0))) entity_.COLLISION_RADIUS)

/-- The entity/wall loop of `collision`: first side whose check is true returns
`some true`; a side whose check fails to produce a boolean returns `none`; an
exhausted loop returns `some false`. -/
def collisionLoop (entity_ : Entity) (w : Wall) : List ℕ → Option Bool
  | [] => some false
  | i :: rest =>
      match sideCheck entity_ w i with
      | none => none
      | some true => some true
      | some false => collisionLoop entity_ w rest

/-- An argument of the source's `collision`: an entity or a wall. -/
inductive Obj where
  | ent (e : Entity)
  | wal (w : Wall)

/-- Source `collision(a, b)`.  Entity/entity: centers closer than the summed
radii.  Entity/wall: the per-side loop over `range(num_vertices)`.  Wall/entity
delegates to entity/wall with the arguments swapped (inlined here).  Wall/wall
matches no `isinstance` branch: the source returns `None`, modelled `none`. -/
def collision : Obj → Obj → Option Bool
  | .ent a, .ent b =>
      some (sqrtLtB (dist2 a.center b.center) (a.COLLISION_RADIUS + b.COLLISION_RADIUS))
  | .ent e, .wal w => collisionLoop e w (List.range w.num_vertices)
  | .wal w, .ent e => collisionLoop e w (List.range w.num_vertices)
  | .wal _, .wal _ => none

/-- The point `r` lies on the infinite line through `p` and `q` (two-point line
equation in cross-multiplied form). -/
def onLine (r p q : Point) : Prop :=
  (q.1 - p.1) * (r.2 - p.2) = (q.2 - p.2) * (r.1 - p.1)

/-- The per-side collision condition of the entity/wall algorithm, stated with
the real Euclidean `distance`: the constructed line's intersection with the
side's infinite line is closer to the entity center than the collision radius
and lies on the side per `on_segment`, or the side's starting vertex is closer
than the collision radius. -/
def sideHits (entity_ : Entity) (w : Wall) (i : ℕ) : Prop :=
  match point_of_intersection (wSide w i) (entity_.center, temp_point entity_ (wSide w i)) with
  | none => False
  | some intersection =>
      (distance (.pt entity_.center) (.pt intersection) < (entity_.COLLISION_RADIUS : ℝ)
         ∧ on_segment intersection (wSide w i) = true)
      ∨ distance (.pt entity_.center) (.pt (w.vertices.getD i (0, 0)))
          < (entity_.COLLISION_RADIUS : ℝ)

/-! Bridge and helper lemmas. -/

lemma dist2_comm (a b : Point) : dist2 a b = dist2 b a := by
  unfold dist2; ring

lemma dist2_self (a : Point) : dist2 a a = 0 := by
  unfold dist2; ring

lemma distance_pt_def (a b : Point) :
    distance (.pt a) (.pt b) = Real.sqrt ((dist2 a b : ℚ) : ℝ) := rfl

/-- The decidable comparison `sqrtLtB d r` is exactly the source's
`math.sqrt d < r`. -/
lemma sqrtLtB_eq_true_iff (d r : ℚ) :
    sqrtLtB d r = true ↔ Real.sqrt ((d : ℚ) : ℝ) < ((r : ℚ) : ℝ) := by
  rcases le_or_lt r 0 with h | h
  · have h1 : sqrtLtB d r = false := by
      unfold sqrtLtB
      simp [not_lt.mpr h]
    have h2 : ¬ Real.sqrt ((d : ℚ) : ℝ) < ((r : ℚ) : ℝ) := by
      have hr : ((r : ℚ) : ℝ) ≤ 0 := by exact_mod_cast h
      exact not_lt.mpr (le_trans hr (Real.sqrt_nonneg _))
    simp [h1, h2]
  · have hr : (0 : ℝ) < ((r : ℚ) : ℝ) := by exact_mod_cast h
    rw [Real.sqrt_lt' hr]
    unfold sqrtLtB
    rw [Bool.and_eq_true, decide_eq_true_eq, decide_eq_true_eq]
    rw [show ((r : ℚ) : ℝ) ^ 2 = ((r * r : ℚ) : ℝ) by push_cast; ring]
    constructor
    · intro a
      exact_mod_cast a.2
    · intro a
      exact ⟨h, by exact_mod_cast a⟩

lemma sqrtLtB_distance (a b : Point) (r : ℚ) :
    sqrtLtB (dist2 a b) r = true ↔ distance (.pt a) (.pt b) < ((r : ℚ) : ℝ) := by
  rw [distance_pt_def]
  exact sqrtLtB_eq_true_iff (dist2 a b) r

lemma slope_eq_none_iff (p q : Point) : slope p q = none ↔ p.1 = q.1 := by
  unfold slope
  split <;> simp_all

lemma slope_of_ne (p q : Point) (h : p.1 ≠ q.1) :
    slope p q = some ((q.2 - p.2) / (q.1 - p.1)) := by
  unfold slope
  rw [if_neg h]

lemma slope_eq_some (p q : Point) (m : ℚ) (h : slope p q = some m) :
    p.1 ≠ q.1 ∧ m = (q.2 - p.2) / (q.1 - p.1) := by
  unfold slope at h
  split at h
  · exact absurd h (by simp)
  · exact ⟨by assumption, (Option.some_inj.mp h).symm⟩

lemma lconst_of_some (l : Point × Point) (m : ℚ) (h : slope l.1 l.2 = some m) :
    lconst l = l.1.2 - l.1.1 * m := by
  unfold lconst
  rw [h]

lemma poi_none_some (l1 l2 : Point × Point) (m2 : ℚ)
    (h1 : slope l1.1 l1.2 = none) (h2 : slope l2.1 l2.2 = some m2) :
    point_of_intersection l1 l2 = some (l1.1.1, m2 * l1.1.1 + lconst l2) := by
  unfold point_of_intersection
  rw [h1, h2]
  simp

lemma poi_some_none (l1 l2 : Point × Point) (m1 : ℚ)
    (h1 : slope l1.1 l1.2 = some m1) (h2 : slope l2.1 l2.2 = none) :
    point_of_intersection l1 l2 = some (l2.1.1, m1 * l2.1.1 + lconst l1) := by
  unfold point_of_intersection
  rw [h1, h2]
  simp

lemma poi_some_some (l1 l2 : Point × Point) (m1 m2 : ℚ)
    (h1 : slope l1.1 l1.2 = some m1) (h2 : slope l2.1 l2.2 = some m2) (hm : m1 ≠ m2) :
    point_of_intersection l1 l2 =
      some ((lconst l2 - lconst l1) / (m1 - m2),
            m1 * ((lconst l2 - lconst l1) / (m1 - m2)) + lconst l1) := by
  unfold point_of_intersection
  rw [h1, h2]
  simp [hm]

lemma onLine_vertical (p q r : Point) (hpq : p.1 = q.1) (hr : r.1 = p.1) : onLine r p q := by
  unfold onLine
  rw [show q.1 - p.1 = 0 by rw [hpq]; ring, show r.1 - p.1 = 0 by rw [hr]; ring]
  ring

lemma onLine_affine (p q : Point) (m x : ℚ) (hs : slope p q = some m) :
    onLine (x, m * x + (p.2 - p.1 * m)) p q := by
  obtain ⟨hne, hm⟩ := slope_eq_some p q m hs
  have hd : q.1 - p.1 ≠ 0 := sub_ne_zero.mpr (Ne.symm hne)
  show (q.1 - p.1) * (m * x + (p.2 - p.1 * m) - p.2) = (q.2 - p.2) * (x - p.1)
  subst hm
  field_simp
  ring

/-! Theorems settling the claims. -/

/-- C9: `slope` is the infinite sentinel exactly for a vertical pair, and
otherwise the difference quotient `(p2.y - p1.y) / (p2.x - p1.x)`. -/
theorem slope_cases :
    ∀ p1 p2 : Point,
      (p1.1 = p2.1 → slope p1 p2 = none) ∧
      (p1.1 ≠ p2.1 → slope p1 p2 = some ((p2.2 - p1.2) / (p2.1 - p1.1))) := by
  intro p1 p2
  exact ⟨fun h => by unfold slope; rw [if_pos h], fun h => slope_of_ne p1 p2 h⟩

/-- C6: for equal computed slopes (including both being the infinite sentinel)
`point_of_intersection` returns `none`, the explicit no-intersection outcome,
which differs from `some r` for every point `r`. -/
theorem point_of_intersection_parallel :
    ∀ l1 l2 : Point × Point, slope l1.1 l1.2 = slope l2.1 l2.2 →
      point_of_intersection l1 l2 = none ∧
      ∀ r : Point, point_of_intersection l1 l2 ≠ some r := by
  intro l1 l2 h
  have hn : point_of_intersection l1 l2 = none := by
    unfold point_of_intersection
    rw [if_pos h]
  refine ⟨hn, fun r hr => ?_⟩
  rw [hn] at hr
  exact Option.noConfusion hr

/-- Witness for C6: two distinct parallel lines of slope 1. -/
theorem point_of_intersection_parallel_witness :
    slope ((0 : ℚ), (0 : ℚ)) ((1 : ℚ), (1 : ℚ)) = slope ((0 : ℚ), (2 : ℚ)) ((1 : ℚ), (3 : ℚ)) ∧
    point_of_intersection (((0 : ℚ), (0 : ℚ)), ((1 : ℚ), (1 : ℚ)))
      (((0 : ℚ), (2 : ℚ)), ((1 : ℚ), (3 : ℚ))) = none := by
  have hs : slope ((0 : ℚ), (0 : ℚ)) ((1 : ℚ), (1 : ℚ))
      = slope ((0 : ℚ), (2 : ℚ)) ((1 : ℚ), (3 : ℚ)) := by
    norm_num [slope]
  exact ⟨hs, (point_of_intersection_parallel _ _ hs).1⟩

/-- C3 (evaluation at the failing input): the left endpoint of the horizontal
segment (0,0)–(1,0) is reported NOT on the segment, because
`slope(point, line[0])` of the coincident pair is the infinite sentinel while
`slope(point, line[1])` is 0, so the collinearity equality fails. -/
theorem on_segment_left_endpoint_eval :
    on_segment ((0 : ℚ), (0 : ℚ)) (((0 : ℚ), (0 : ℚ)), ((1 : ℚ), (0 : ℚ))) = false := by
  simp (disch := norm_num) [on_segment, slope, min', max', decide_eq_true, decide_eq_false]

/-- C8: `distance` is symmetric and zero on equal points, and the four
`isinstance` dispatch variants agree on arguments with equal coordinates; the
entity/point variant is the point/entity variant with the arguments swapped. -/
theorem distance_symm_and_variants :
    (∀ p q : Point, distance (.pt p) (.pt q) = distance (.pt q) (.pt p)) ∧
    (∀ p : Point, distance (.pt p) (.pt p) = 0) ∧
    (∀ e f : Entity, distance (.ent e) (.ent f) = distance (.pt (e.x, e.y)) (.pt (f.x, f.y))) ∧
    (∀ (p : Point) (f : Entity), distance (.pt p) (.ent f) = distance (.pt p) (.pt (f.x, f.y))) ∧
    (∀ (e : Entity) (q : Point), distance (.ent e) (.pt q) = distance (.pt q) (.ent e)) := by
  refine ⟨?_, ?_, fun e f => rfl, fun p f => rfl, fun e q => rfl⟩
  · intro p q
    rw [distance_pt_def, distance_pt_def, dist2_comm]
  · intro p
    rw [distance_pt_def, dist2_self]
    simp

/-- C2: entity/entity collision holds exactly when the center distance is
strictly below the summed radii, with the spec's two concrete scenarios. -/
theorem collision_entity_entity_iff :
    (∀ a b : Entity, collision (.ent a) (.ent b) = some true ↔
        distance (.pt a.center) (.pt b.center)
          < ((a.COLLISION_RADIUS : ℚ) : ℝ) + ((b.COLLISION_RADIUS : ℚ) : ℝ)) ∧
    collision (.ent ⟨0, 0, (0, 0), 5⟩) (.ent ⟨8, 0, (8, 0), 4⟩) = some true ∧
    collision (.ent ⟨0, 0, (0, 0), 1⟩) (.ent ⟨10, 0, (10, 0), 1⟩) = some false := by
  refine ⟨?_, ?_, ?_⟩
  · intro a b
    show some (sqrtLtB (dist2 a.center b.center)
        (a.COLLISION_RADIUS + b.COLLISION_RADIUS)) = some true ↔ _
    rw [Option.some_inj, sqrtLtB_distance]
    rw [show ((a.COLLISION_RADIUS + b.COLLISION_RADIUS : ℚ) : ℝ)
        = ((a.COLLISION_RADIUS : ℚ) : ℝ) + ((b.COLLISION_RADIUS : ℚ) : ℝ) by push_cast; ring]
  · simp (disch := norm_num) [collision, sqrtLtB, dist2, decide_eq_true, decide_eq_false]
  · simp (disch := norm_num) [collision, sqrtLtB, dist2, decide_eq_true, decide_eq_false]

/-- C7: wall/entity collision delegates to entity/wall with the arguments
swapped, and entity/entity collision is symmetric. -/
theorem collision_commutes :
    (∀ (w : Wall) (e : Entity), collision (.wal w) (.ent e) = collision (.ent e) (.wal w)) ∧
    (∀ a b : Entity, collision (.ent a) (.ent b) = collision (.ent b) (.ent a)) := by
  refine ⟨fun w e => rfl, fun a b => ?_⟩
  show some (sqrtLtB (dist2 a.center b.center) (a.COLLISION_RADIUS + b.COLLISION_RADIUS))
      = some (sqrtLtB (dist2 b.center a.center) (b.COLLISION_RADIUS + a.COLLISION_RADIUS))
  rw [dist2_comm, add_comm]

/-- C5: for two segments with distinct endpoints and unequal computed slopes,
`point_of_intersection` returns a point lying on both infinite lines (the
two-point line equation of each endpoint pair holds at the returned point). -/
theorem point_of_intersection_on_both_lines :
    ∀ l1 l2 : Point × Point, l1.1 ≠ l1.2 → l2.1 ≠ l2.2 →
      slope l1.1 l1.2 ≠ slope l2.1 l2.2 →
      ∃ r : Point, point_of_intersection l1 l2 = some r ∧
        onLine r l1.1 l1.2 ∧ onLine r l2.1 l2.2 := by
  intro l1 l2 _ _ hs
  rcases hs1 : slope l1.1 l1.2 with _ | m1 <;> rcases hs2 : slope l2.1 l2.2 with _ | m2
  · rw [hs1, hs2] at hs
    exact absurd rfl hs
  · refine ⟨_, poi_none_some l1 l2 m2 hs1 hs2, ?_, ?_⟩
    · exact onLine_vertical l1.1 l1.2 _ ((slope_eq_none_iff _ _).mp hs1) rfl
    · rw [lconst_of_some l2 m2 hs2]
      exact onLine_affine l2.1 l2.2 m2 l1.1.1 hs2
  · refine ⟨_, poi_some_none l1 l2 m1 hs1 hs2, ?_, ?_⟩
    · rw [lconst_of_some l1 m1 hs1]
      exact onLine_affine l1.1 l1.2 m1 l2.1.1 hs1
    · exact onLine_vertical l2.1 l2.2 _ ((slope_eq_none_iff _ _).mp hs2) rfl
  · have hm : m1 ≠ m2 := by
      intro e
      rw [hs1, hs2, e] at hs
      exact hs rfl
    have hne : m1 - m2 ≠ 0 := sub_ne_zero.mpr hm
    refine ⟨_, poi_some_some l1 l2 m1 m2 hs1 hs2 hm, ?_, ?_⟩
    · rw [lconst_of_some l1 m1 hs1]
      exact onLine_affine l1.1 l1.2 m1 _ hs1
    · have hX : m1 * ((lconst l2 - lconst l1) / (m1 - m2)) + lconst l1
          = m2 * ((lconst l2 - lconst l1) / (m1 - m2)) + lconst l2 := by
        field_simp
        ring
      rw [hX, lconst_of_some l2 m2 hs2]
      exact onLine_affine l2.1 l2.2 m2 _ hs2

/-- Witness for C5: the diagonals of the square (0,0)–(2,2) meet at a point on
both lines. -/
theorem point_of_intersection_on_both_lines_witness :
    ((0 : ℚ), (0 : ℚ)) ≠ ((2 : ℚ), (2 : ℚ)) ∧ ((0 : ℚ), (2 : ℚ)) ≠ ((2 : ℚ), (0 : ℚ)) ∧
    slope ((0 : ℚ), (0 : ℚ)) ((2 : ℚ), (2 : ℚ)) ≠ slope ((0 : ℚ), (2 : ℚ)) ((2 : ℚ), (0 : ℚ)) ∧
    ∃ r : Point,
      point_of_intersection (((0 : ℚ), (0 : ℚ)), ((2 : ℚ), (2 : ℚ)))
        (((0 : ℚ), (2 : ℚ)), ((2 : ℚ), (0 : ℚ))) = some r ∧
      onLine r ((0 : ℚ), (0 : ℚ)) ((2 : ℚ), (2 : ℚ)) ∧
      onLine r ((0 : ℚ), (2 : ℚ)) ((2 : ℚ), (0 : ℚ)) :=
  ⟨by simp [Prod.ext_iff], by simp [Prod.ext_iff],
   by norm_num [slope],
   point_of_intersection_on_both_lines (((0 : ℚ), (0 : ℚ)), ((2 : ℚ), (2 : ℚ)))
     (((0 : ℚ), (2 : ℚ)), ((2 : ℚ), (0 : ℚ)))
     (by simp [Prod.ext_iff]) (by simp [Prod.ext_iff]) (by norm_num [slope])⟩

/-- C4: `angle_to_point` equals the arctangent heading plus the bare 180/0
correction term — the `% 360` is a no-op on that term, so the result is not
normalized, and inputs with the target strictly to the right can return a
negative angle. -/
theorem angle_to_point_unnormalized :
    (∀ (e : Entity) (p : Point), p.1 ≠ e.x →
        angle_to_point e p =
          -(Real.arctan (((p.2 - e.y : ℚ) : ℝ) / ((p.1 - e.x : ℚ) : ℝ)) * 180 / Real.pi)
            + (if p.1 - e.x < 0 then (180 : ℝ) else 0)) ∧
    (∃ (e : Entity) (p : Point), e.x < p.1 ∧ angle_to_point e p < 0) := by
  constructor
  · intro e p _
    unfold angle_to_point
    rw [show (((p.2 - e.y) / (p.1 - e.x) : ℚ) : ℝ)
        = ((p.2 - e.y : ℚ) : ℝ) / ((p.1 - e.x : ℚ) : ℝ) by push_cast; ring]
    congr 1
    by_cases hlt : p.1 - e.x < 0
    · rw [if_pos hlt, if_pos hlt]
      norm_num [pymod]
    · rw [if_neg hlt, if_neg hlt]
      norm_num [pymod]
  · refine ⟨⟨0, 0, (0, 0), 0⟩, (1, 1), by norm_num, ?_⟩
    unfold angle_to_point
    norm_num [pymod]
    positivity

/-- When the entity's center is its position, the line through the center and
`temp_point` is never parallel to the side, so `point_of_intersection`
returns a point (the source never hits its `TypeError` path). -/
lemma temp_point_poi_some (e : Entity) (side : Point × Point) (hc : e.center = (e.x, e.y)) :
    ∃ r : Point, point_of_intersection side (e.center, temp_point e side) = some r := by
  rcases hsl : slope side.1 side.2 with _ | m
  · have ht : temp_point e side = (e.x + 1, e.y) := by
      unfold temp_point
      rw [hsl]
    have h2 : slope (e.center, temp_point e side).1 (e.center, temp_point e side).2 = some 0 := by
      show slope e.center (temp_point e side) = some 0
      rw [ht, hc]
      rw [slope_of_ne (e.x, e.y) (e.x + 1, e.y) (by simp)]
      simp
    exact ⟨_, poi_none_some side _ 0 hsl h2⟩
  · by_cases hm : |m| = 0
    · have ht : temp_point e side = (e.x, e.y + 1) := by
        unfold temp_point
        simp only [hsl]
        rw [if_pos hm]
      have h2 : slope (e.center, temp_point e side).1 (e.center, temp_point e side).2 = none := by
        show slope e.center (temp_point e side) = none
        rw [ht, hc]
        exact (slope_eq_none_iff _ _).mpr rfl
      exact ⟨_, poi_some_none side _ m hsl h2⟩
    · have ht : temp_point e side = (e.x, e.y + -1 / m) := by
        unfold temp_point
        simp only [hsl]
        rw [if_neg hm]
      have h2 : slope (e.center, temp_point e side).1 (e.center, temp_point e side).2 = none := by
        show slope e.center (temp_point e side) = none
        rw [ht, hc]
        exact (slope_eq_none_iff _ _).mpr rfl
      exact ⟨_, poi_some_none side _ m hsl h2⟩

lemma sideHits_iff (e : Entity) (w : Wall) (i : ℕ) (r : Point)
    (hr : point_of_intersection (wSide w i) (e.center, temp_point e (wSide w i)) = some r) :
    sideHits e w i ↔
      ((distance (.pt e.center) (.pt r) < ((e.COLLISION_RADIUS : ℚ) : ℝ)
          ∧ on_segment r (wSide w i) = true)
        ∨ distance (.pt e.center) (.pt (w.vertices.getD i (0, 0)))
            < ((e.COLLISION_RADIUS : ℚ) : ℝ)) := by
  unfold sideHits
  rw [hr]

lemma sideCheck_eq (e : Entity) (w : Wall) (i : ℕ) (hc : e.center = (e.x, e.y)) :
    ∃ b, sideCheck e w i = some b ∧ (b = true ↔ sideHits e w i) := by
  obtain ⟨r, hr⟩ := temp_point_poi_some e (wSide w i) hc
  have hs : sideCheck e w i =
      some ((sqrtLtB (dist2 e.center r) e.COLLISION_RADIUS && on_segment r (wSide w i))
        || sqrtLtB (dist2 e.center (w.vertices.getD i (0, 0))) e.COLLISION_RADIUS) := by
    unfold sideCheck
    rw [hr]
  refine ⟨_, hs, ?_⟩
  rw [sideHits_iff e w i r hr]
  simp only [Bool.or_eq_true, Bool.and_eq_true, sqrtLtB_distance]

lemma collisionLoop_iff (e : Entity) (w : Wall) (l : List ℕ) (hc : e.center = (e.x, e.y)) :
    (collisionLoop e w l = some true ↔ ∃ i ∈ l, sideHits e w i) ∧
    (collisionLoop e w l = some false ↔ ∀ i ∈ l, ¬ sideHits e w i) := by
  induction l with
  | nil => simp [collisionLoop]
  | cons j rest ih =>
    obtain ⟨b, hb, hiff⟩ := sideCheck_eq e w j hc
    cases b with
    | false =>
      have hloop : collisionLoop e w (j :: rest) = collisionLoop e w rest := by
        simp only [collisionLoop, hb]
      have hnj : ¬ sideHits e w j := fun hh => by simpa using hiff.mpr hh
      constructor
      · rw [hloop, ih.1]
        constructor
        · rintro ⟨i, hi, hh⟩
          exact ⟨i, List.mem_cons_of_mem _ hi, hh⟩
        · rintro ⟨i, hi, hh⟩
          rcases List.mem_cons.mp hi with rfl | hi
          · exact absurd hh hnj
          · exact ⟨i, hi, hh⟩
      · rw [hloop, ih.2]
        constructor
        · intro h i hi
          rcases List.mem_cons.mp hi with rfl | hi
          · exact hnj
          · exact h i hi
        · intro h i hi
          exact h i (List.mem_cons_of_mem _ hi)
    | true =>
      have hloop : collisionLoop e w (j :: rest) = some true := by
        simp only [collisionLoop, hb]
      have hj : sideHits e w j := hiff.mp rfl
      constructor
      · rw [hloop]
        exact ⟨fun _ => ⟨j, List.mem_cons_self j rest, hj⟩, fun _ => rfl⟩
      · rw [hloop]
        constructor
        · intro h
          exact absurd h (by simp)
        · intro h
          exact absurd hj (h j (List.mem_cons_self j rest))

/-- C1: for an entity whose center is its position and a wall with at least one
vertex, entity/wall collision reports true exactly when some side satisfies the
per-side condition (perpendicular-construction intersection within the radius
and on the segment, or starting vertex within the radius), and false exactly
when no side does. -/
theorem collision_entity_wall_iff (e : Entity) (w : Wall)
    (hc : e.center = (e.x, e.y)) (_hn : 0 < w.num_vertices) :
    (collision (.ent e) (.wal w) = some true ↔
      ∃ i, i < w.num_vertices ∧ sideHits e w i) ∧
    (collision (.ent e) (.wal w) = some false ↔
      ∀ i, i < w.num_vertices → ¬ sideHits e w i) := by
  have h := collisionLoop_iff e w (List.range w.num_vertices) hc
  have hco : collision (.ent e) (.wal w) = collisionLoop e w (List.range w.num_vertices) := rfl
  constructor
  · rw [hco, h.1]
    constructor
    · rintro ⟨i, hi, hh⟩
      exact ⟨i, List.mem_range.mp hi, hh⟩
    · rintro ⟨i, hi, hh⟩
      exact ⟨i, List.mem_range.mpr hi, hh⟩
  · rw [hco, h.2]
    constructor
    · intro hh i hi
      exact hh i (List.mem_range.mpr hi)
    · intro hh i hi
      exact hh i (List.mem_range.mp hi)

/-- The square wall of the spec's scenarios. -/
def wSq : Wall := ⟨[(0, 0), (10, 0), (10, 10), (0, 10)]⟩

/-- The entity overlapping the square's bottom side (center = position). -/
def eBot : Entity := ⟨5, -(1/2), (5, -(1/2)), 1⟩

/-- The entity strictly inside the square, far from all sides (center = position). -/
def eIn : Entity := ⟨5, 5, (5, 5), 1⟩

/-- Witness for C1 at the spec's bottom-side scenario. -/
theorem collision_entity_wall_iff_witness :
    eBot.center = (eBot.x, eBot.y) ∧ 0 < wSq.num_vertices ∧
    ((collision (.ent eBot) (.wal wSq) = some true ↔
        ∃ i, i < wSq.num_vertices ∧ sideHits eBot wSq i) ∧
     (collision (.ent eBot) (.wal wSq) = some false ↔
        ∀ i, i < wSq.num_vertices → ¬ sideHits eBot wSq i)) :=
  ⟨rfl, by norm_num [wSq, Wall.num_vertices],
   collision_entity_wall_iff eBot wSq rfl (by norm_num [wSq, Wall.num_vertices])⟩

lemma le_distance_of_sq_le (a b : Point) (rr : ℚ) (h : rr * rr ≤ dist2 a b) :
    ((rr : ℚ) : ℝ) ≤ distance (.pt a) (.pt b) := by
  rw [distance_pt_def]
  apply Real.le_sqrt_of_sq_le
  rw [show ((rr : ℚ) : ℝ) ^ 2 = ((rr * rr : ℚ) : ℝ) by push_cast; ring]
  exact_mod_cast h

/-- C10: when the entity's center is its position and, for every side, the
constructed-line intersection point and every vertex are at distance at least
the collision radius from the center, the entity/wall collision is false —
the per-side projection test sees nothing, point-in-polygon is not tested. -/
theorem collision_entity_wall_far_false (e : Entity) (w : Wall)
    (hc : e.center = (e.x, e.y))
    (hside : ∀ i, i < w.num_vertices → ∀ r : Point,
        point_of_intersection (wSide w i) (e.center, temp_point e (wSide w i)) = some r →
        ((e.COLLISION_RADIUS : ℚ) : ℝ) ≤ distance (.pt e.center) (.pt r))
    (hvert : ∀ i, i < w.num_vertices →
        ((e.COLLISION_RADIUS : ℚ) : ℝ)
          ≤ distance (.pt e.center) (.pt (w.vertices.getD i (0, 0)))) :
    collision (.ent e) (.wal w) = some false := by
  have h := (collisionLoop_iff e w (List.range w.num_vertices) hc).2
  have hco : collision (.ent e) (.wal w) = collisionLoop e w (List.range w.num_vertices) := rfl
  rw [hco, h]
  intro i hi
  have hi2 := List.mem_range.mp hi
  obtain ⟨r, hr⟩ := temp_point_poi_some e (wSide w i) hc
  rw [sideHits_iff e w i r hr]
  rintro (⟨hlt, _⟩ | hlt)
  · exact absurd hlt (not_lt.mpr (hside i hi2 r hr))
  · exact absurd hlt (not_lt.mpr (hvert i hi2))

/-- Witness for C10 at the spec's inside-the-square scenario: center (5,5),
radius 1, square (0,0)–(10,10); every per-side intersection point and vertex is
at distance at least 1 (in fact at least 5), and the collision is false. -/
theorem collision_entity_wall_far_false_witness :
    eIn.center = (eIn.x, eIn.y) ∧ collision (.ent eIn) (.wal wSq) = some false :=
  ⟨rfl, collision_entity_wall_far_false eIn wSq rfl
    (by
      intro i hi r hr
      have h4 : wSq.num_vertices = 4 := by norm_num [wSq, Wall.num_vertices]
      rw [h4] at hi
      interval_cases i
      · rw [show point_of_intersection (wSide wSq 0) (eIn.center, temp_point eIn (wSide wSq 0))
            = some ((5 : ℚ), (0 : ℚ)) by
          simp (disch := norm_num) [point_of_intersection, wSide, wSq, eIn, temp_point, slope,
            lconst, Wall.num_vertices, decide_eq_true, decide_eq_false]] at hr
        obtain rfl := Option.some_inj.mp hr
        apply le_distance_of_sq_le
        norm_num [eIn, dist2]
      · rw [show point_of_intersection (wSide wSq 1) (eIn.center, temp_point eIn (wSide wSq 1))
            = some ((10 : ℚ), (5 : ℚ)) by
          simp (disch := norm_num) [point_of_intersection, wSide, wSq, eIn, temp_point, slope,
            lconst, Wall.num_vertices, decide_eq_true, decide_eq_false]] at hr
        obtain rfl := Option.some_inj.mp hr
        apply le_distance_of_sq_le
        norm_num [eIn, dist2]
      · rw [show point_of_intersection (wSide wSq 2) (eIn.center, temp_point eIn (wSide wSq 2))
            = some ((5 : ℚ), (10 : ℚ)) by
          simp (disch := norm_num) [point_of_intersection, wSide, wSq, eIn, temp_point, slope,
            lconst, Wall.num_vertices, decide_eq_true, decide_eq_false]] at hr
        obtain rfl := Option.some_inj.mp hr
        apply le_distance_of_sq_le
        norm_num [eIn, dist2]
      · rw [show point_of_intersection (wSide wSq 3) (eIn.center, temp_point eIn (wSide wSq 3))
            = some ((0 : ℚ), (5 : ℚ)) by
          simp (disch := norm_num) [point_of_intersection, wSide, wSq, eIn, temp_point, slope,
            lconst, Wall.num_vertices, decide_eq_true, decide_eq_false]] at hr
        obtain rfl := Option.some_inj.mp hr
        apply le_distance_of_sq_le
        norm_num [eIn, dist2])
    (by
      intro i hi
      have h4 : wSq.num_vertices = 4 := by norm_num [wSq, Wall.num_vertices]
      rw [h4] at hi
      interval_cases i <;>
        · apply le_distance_of_sq_le
          norm_num [eIn, wSq, dist2, List.getD])⟩

end Geom
